import Mathlib

/-!
Verification of the Source Synchronization Engine of the legal-contract
analyzer: a shallow embedding of `kb_manager.py` and
`insert_query_generator.py` (content-column resolution, insert-query
synthesis, the sync-state store, per-instance job lifecycle and the
persisted-state loaders), with theorems settling the specification's claims
about them.
-/

namespace LegalKB

/-- Python's substring test `pat in s`, on the character lists of the two
strings: `pat` occurs contiguously inside `s`. -/
def listContainsSub (pat : List Char) : List Char → Bool
  | [] => pat.isEmpty
  | c :: rest => List.isPrefixOf pat (c :: rest) || listContainsSub pat rest

/-- Python `pat in s` for strings. -/
def strContains (pat s : String) : Bool :=
  listContainsSub pat.data s.data

/-- Python's `str.lower()` on the names this system handles (ASCII column,
table and instance names): character-wise lowering. -/
def strLower (s : String) : String :=
  ⟨s.data.map Char.toLower⟩

/-- Whether `pat` is a prefix of `s` (the `LIKE 'pat%'` test). -/
def strStartsWith (s pat : String) : Bool :=
  List.isPrefixOf pat.data s.data

/-- Whether `pat` is a suffix of `s` (the `LIKE '%pat'` test). -/
def strEndsWith (s pat : String) : Bool :=
  List.isSuffixOf pat.data s.data

/-! ## Content-column resolution (`insert_query_generator.py`, `kb_manager.py`) -/

/-- The loop `for field in priority_fields: if field in available_columns:
return field` of `InsertQueryGenerator._find_best_content_field`. -/
def findExactField : List String → List String → Option String
  | [], _ => none
  | f :: fs, cols => if cols.contains f then some f else findExactField fs cols

/-- The inner loop `for col in available_columns: if field.lower() in
col.lower(): return col` of `_find_best_content_field`. -/
def colPartial (f : String) : List String → Option String
  | [] => none
  | c :: cs => if strContains (strLower f) (strLower c) then some c else colPartial f cs

/-- The outer partial-match loop of `_find_best_content_field`. -/
def findPartialField : List String → List String → Option String
  | [], _ => none
  | f :: fs, cols =>
    match colPartial f cols with
    | some c => some c
    | none => findPartialField fs cols

/-- `InsertQueryGenerator._find_best_content_field(available_columns,
priority_fields)`.  A `None` argument for `available_columns` behaves exactly
like `[]` in the Python (`if not available_columns`), so the embedding takes
the list directly. -/
def find_best_content_field (available_columns : List String)
    (priority_fields : List String) : String :=
  if available_columns.isEmpty then priority_fields.headD "content"
  else
    match findExactField priority_fields available_columns with
    | some f => f
    | none =>
      match findPartialField priority_fields available_columns with
      | some c => c
      | none => priority_fields.headD "content"

/-- The email priority list passed by `_generate_email_insert_query`. -/
def email_priority_fields : List String :=
  ["body", "content", "text", "message", "html_body", "plain_text", "subject"]

/-- The postgres priority list passed by `_generate_postgres_insert_query`. -/
def postgres_priority_fields : List String :=
  ["content", "contract_text", "text", "document_text", "description"]

/-- The priority names of
`KnowledgeBaseManager._detect_contract_text_column_for_source`. -/
def kb_priority_names : List String :=
  ["content", "contract_text", "text", "document_text", "pdf_content",
   "contract_content", "full_text", "body", "document_content",
   "contract_url", "pdf_url", "document_url", "url", "link",
   "file_path", "document_path", "pdf_path", "subject"]

/-- The keyword list of the final fallback loop of
`_detect_contract_text_column_for_source`. -/
def kb_fallback_keywords : List String :=
  ["text", "content", "url", "pdf", "document", "subject", "body"]

/-- The partial-match inner loop of `_detect_contract_text_column_for_source`
(`if priority_name in column_name.lower()`: the priority name is not lowered
there, the column name is). -/
def kbColPartial (p : String) : List String → Option String
  | [] => none
  | c :: cs => if strContains p (strLower c) then some c else kbColPartial p cs

/-- The partial-match outer loop of `_detect_contract_text_column_for_source`. -/
def kbPartial : List String → List String → Option String
  | [], _ => none
  | p :: ps, cols =>
    match kbColPartial p cols with
    | some c => some c
    | none => kbPartial ps cols

/-- The keyword fallback loop of `_detect_contract_text_column_for_source`:
the first column whose lowering contains one of `kb_fallback_keywords`. -/
def kbKeywordFallback : List String → Option String
  | [] => none
  | c :: cs =>
    if kb_fallback_keywords.any (fun k => strContains k (strLower c)) then some c
    else kbKeywordFallback cs

/-- The pure resolution core of
`KnowledgeBaseManager._detect_contract_text_column_for_source`, over the
column list obtained from schema introspection (`if not columns: return
None`, then exact, partial, keyword fallback, else `None`). -/
def detect_contract_text_column (columns : List String) : Option String :=
  if columns.isEmpty then none
  else
    match findExactField kb_priority_names columns with
    | some f => some f
    | none =>
      match kbPartial kb_priority_names columns with
      | some c => some c
      | none => kbKeywordFallback columns

/-- The spec's claimed resolution order, written from the claim's words:
(1) first priority name that is an exact case-sensitive member of the
available columns; (2) otherwise the first available column that contains a
priority name as a case-insensitive substring; (3) otherwise no column. -/
def claimed_resolution (cols priority : List String) : Option String :=
  match priority.find? (fun f => cols.contains f) with
  | some f => some f
  | none =>
    cols.find? (fun c => priority.any (fun f => strContains (strLower f) (strLower c)))

/-- The amended description of `_find_best_content_field`: exact member
first; otherwise, scanning priority names in priority order, the first
available column containing the current priority name case-insensitively;
otherwise the head of the priority list as a default. -/
def amended_find_best (cols priority : List String) : String :=
  match priority.find? (fun f => cols.contains f) with
  | some f => f
  | none =>
    match priority.findSome?
        (fun f => cols.find? (fun c => strContains (strLower f) (strLower c))) with
    | some c => c
    | none => priority.headD "content"

/-- The amended description of the `kb_manager` detector: exact member first;
then priority-ordered case-insensitive substring match; then the first column
containing one of the fallback keywords; otherwise no column. -/
def amended_detect (cols : List String) : Option String :=
  (kb_priority_names.find? (fun p => cols.contains p)) <|>
  (kb_priority_names.findSome?
      (fun p => cols.find? (fun c => strContains p (strLower c)))) <|>
  (cols.find? (fun c => kb_fallback_keywords.any (fun k => strContains k (strLower c))))

/-! ## Query synthesis (`insert_query_generator.py`) -/

/-- `InsertQueryGenerator._safe_coalesce`: a null-safe COALESCE clause when
the field exists in the table, the empty-string literal otherwise. -/
def safe_coalesce (field_name : String) (available_columns : List String) : String :=
  if available_columns.contains field_name then
    "COALESCE(" ++ field_name ++ ", '')"
  else "''"

/-- `InsertQueryGenerator._build_json_object_clause`. -/
def build_json_object_clause (metadata_fields : List (String × String)) : String :=
  "JSON_OBJECT(" ++
    String.intercalate ", "
      (metadata_fields.map (fun p => "'" ++ p.1 ++ "', " ++ p.2)) ++ ")"

/-- The text of the CASE expression of
`InsertQueryGenerator._generate_content_extraction_clause` for a resolved
content field (whitespace as the Python f-string leaves it after `strip()`). -/
def pdf_case_text (f : String) : String :=
  "CASE \n                WHEN " ++ f ++ " LIKE 'http%' AND \n                     (" ++
  f ++ " LIKE '%.pdf' OR \n                      LOWER(" ++ f ++
  ") LIKE '%pdf%')\n                THEN TO_MARKDOWN(" ++ f ++
  ")\n                ELSE " ++ f ++ "\n            END"

/-- `InsertQueryGenerator._generate_content_extraction_clause`: the literal
sentinel for a falsy content field (`None` or the empty string), otherwise
the PDF-aware CASE expression. -/
def generate_content_extraction_clause (content_field : Option String) : String :=
  match content_field with
  | none => "'No content available'"
  | some f => if f = "" then "'No content available'" else pdf_case_text f

/-- The emitted content expression, structurally: either the sentinel literal
or the PDF-aware conditional over a content column. -/
inductive ContentExpr where
  | sentinel : ContentExpr
  | pdfCase : String → ContentExpr
deriving DecidableEq, Repr

/-- The structure of the clause `_generate_content_extraction_clause` emits. -/
def content_clause_ast (content_field : Option String) : ContentExpr :=
  match content_field with
  | none => .sentinel
  | some f => if f = "" then .sentinel else .pdfCase f

/-- Rendering the structured clause back to the emitted SQL text. -/
def render_content_expr : ContentExpr → String
  | .sentinel => "'No content available'"
  | .pdfCase f => pdf_case_text f

/-- What the content expression produces for one row. -/
inductive ContentValue where
  | noContent
  | markdown (v : String)
  | raw (v : String)
deriving DecidableEq, Repr

/-- Evaluation of the emitted content expression on the content column's
value `v` in one row, reading the SQL operators it is built from:
`LIKE 'http%'` is a prefix test, `LIKE '%.pdf'` a suffix test,
`LOWER(x) LIKE '%pdf%'` a case-insensitive substring test, `TO_MARKDOWN`
the document-to-text conversion request. -/
def eval_content_expr (e : ContentExpr) (v : String) : ContentValue :=
  match e with
  | .sentinel => .noContent
  | .pdfCase _ =>
    if strStartsWith v "http" && (strEndsWith v ".pdf" || strContains "pdf" (strLower v)) then
      .markdown v
    else .raw v

/-- The content-field resolution of `_generate_email_insert_query`: the
caller's `contract_text_column` when truthy, else `_find_best_content_field`
over the email priority list. -/
def email_content_field (contract_text_column : Option String)
    (available_columns : List String) : String :=
  match contract_text_column with
  | none => find_best_content_field available_columns email_priority_fields
  | some c =>
    if c = "" then find_best_content_field available_columns email_priority_fields
    else c

/-- The key/value pairs of the JSON_OBJECT clause of
`_generate_email_insert_query`, in emission order. -/
def email_metadata_pairs (datasource_name table_name content_field : String)
    (available_columns : List String) : List (String × String) :=
  [("source_table", "'" ++ datasource_name ++ "." ++ table_name ++ "'"),
   ("content_column", "'" ++ (if content_field = "" then "body" else content_field) ++ "'"),
   ("to_field", safe_coalesce "to_field" available_columns),
   ("from_field", safe_coalesce "from_field" available_columns),
   ("datetime", safe_coalesce "datetime" available_columns),
   ("subject", safe_coalesce "subject" available_columns),
   ("message_id", safe_coalesce "message_id" available_columns),
   ("data_type", "'email'")]

/-- The inline JSON_OBJECT text of `_generate_email_insert_query` (pair
separators as the f-string's newlines and indentation leave them). -/
def email_metadata_clause (datasource_name table_name content_field : String)
    (available_columns : List String) : String :=
  "JSON_OBJECT(\n                        " ++
  String.intercalate ",\n                        "
    ((email_metadata_pairs datasource_name table_name content_field
        available_columns).map (fun p => "'" ++ p.1 ++ "', " ++ p.2)) ++
  "\n                    )"

/-- `InsertQueryGenerator._generate_email_insert_query`. -/
def generate_email_insert_query (project_name kb_name datasource_name table_name : String)
    (contract_text_column : Option String) (available_columns : List String)
    (include_metadata : Bool) : String :=
  let content_field := email_content_field contract_text_column available_columns
  if include_metadata then
    "INSERT INTO " ++ project_name ++ "." ++ kb_name ++
    " (content, metadata)\n                SELECT \n                    " ++
    generate_content_extraction_clause (some content_field) ++
    " AS content,\n                    " ++
    email_metadata_clause datasource_name table_name content_field available_columns ++
    " as metadata\n                FROM " ++ datasource_name ++ "." ++ table_name
  else
    "INSERT INTO " ++ project_name ++ "." ++ kb_name ++
    " (content)\n                SELECT " ++
    generate_content_extraction_clause (some content_field) ++
    " AS content\n                FROM " ++ datasource_name ++ "." ++ table_name

/-- The content-field resolution of `_generate_postgres_insert_query`. -/
def postgres_content_field (contract_text_column : Option String)
    (available_columns : List String) : String :=
  match contract_text_column with
  | none => find_best_content_field available_columns postgres_priority_fields
  | some c =>
    if c = "" then find_best_content_field available_columns postgres_priority_fields
    else c

/-- The common business fields `_generate_postgres_insert_query` adds to the
metadata when they exist in the source table. -/
def postgres_common_fields : List String :=
  ["id", "name", "title", "created_at", "updated_at", "status", "category"]

/-- The key/value pairs of the postgres metadata object: the three fixed
fields, then each common business field present in `available_columns`,
null-safe coalesced. -/
def postgres_metadata_pairs (datasource_name table_name content_field : String)
    (available_columns : List String) : List (String × String) :=
  [("source_table", "'" ++ datasource_name ++ "." ++ table_name ++ "'"),
   ("content_column", "'" ++ (if content_field = "" then "content" else content_field) ++ "'"),
   ("data_type", "'postgres'")] ++
  (postgres_common_fields.filter (fun f => available_columns.contains f)).map
    (fun f => (f, safe_coalesce f available_columns))

/-- `InsertQueryGenerator._generate_postgres_insert_query`. -/
def generate_postgres_insert_query (project_name kb_name datasource_name table_name : String)
    (contract_text_column : Option String) (available_columns : List String)
    (include_metadata : Bool) : String :=
  let content_field := postgres_content_field contract_text_column available_columns
  if include_metadata then
    "INSERT INTO " ++ project_name ++ "." ++ kb_name ++
    " (content, metadata)\n                SELECT \n                    " ++
    generate_content_extraction_clause (some content_field) ++
    " AS content,\n                    " ++
    build_json_object_clause
      (postgres_metadata_pairs datasource_name table_name content_field
        available_columns) ++
    " as metadata\n                FROM " ++ datasource_name ++ "." ++ table_name
  else
    "INSERT INTO " ++ project_name ++ "." ++ kb_name ++
    " (content)\n                SELECT " ++
    generate_content_extraction_clause (some content_field) ++
    " AS content\n                FROM " ++ datasource_name ++ "." ++ table_name

/-! ## Sync state store and sync pass (`kb_manager.py`) -/

/-- One value of the persisted `integration_configs.json` registry:
`selected_tables` is absent (`none`), or the stored list. -/
structure IntegrationConfig where
  selected_tables : Option (List String)
deriving DecidableEq, Repr

/-- One entry of the persisted tracking map (`kb_tracking.json`,
`processed_sources`), keyed elsewhere by the unit's full name. -/
structure SyncEntry where
  first_processed : String
  last_synced : String
  datasource_type : String
  engine : String
  status : String
  removed_date : Option String
deriving DecidableEq, Repr

/-- The whole persisted tracking document: the map of processed sources (an
association list with the dict's key order), the last-pass timestamp and the
pass counter. -/
structure TrackingData where
  processed_sources : List (String × SyncEntry)
  last_sync : Option String
  sync_count : Nat
deriving DecidableEq, Repr

/-- One ingestion unit as Discovery reports it: the dict built by
`_get_legal_contract_datasources`. -/
structure Source where
  instance_name : String
  datasource_name : String
  table_name : String
  datasource_type : String
  full_name : String
  engine : String
deriving DecidableEq, Repr

/-- The keys of the tracking map. -/
def entryKeys (m : List (String × SyncEntry)) : List String :=
  m.map (·.1)

/-- Python dict lookup on the tracking map. -/
def lookupEntry (m : List (String × SyncEntry)) (k : String) : Option SyncEntry :=
  match m with
  | [] => none
  | p :: rest => if p.1 = k then some p.2 else lookupEntry rest k

/-- Python dict assignment `d[k] = v`: replace in place when the key exists,
append otherwise. -/
def upsertEntry (m : List (String × SyncEntry)) (k : String) (v : SyncEntry) :
    List (String × SyncEntry) :=
  if (lookupEntry m k).isSome then
    m.map (fun p => if p.1 = k then (k, v) else p)
  else m ++ [(k, v)]

/-- The two in-place assignments that soft-remove an entry: set `status` to
`removed` and record the removal timestamp, everything else untouched. -/
def mark_removed_entry (e : SyncEntry) (now : String) : SyncEntry :=
  { e with status := "removed", removed_date := some now }

/-- `KnowledgeBaseManager._has_configured_datasources`: some registry entry
has a truthy `selected_tables`. -/
def has_configured_datasources (configs : List (String × IntegrationConfig)) : Bool :=
  configs.any (fun c =>
    match c.2.selected_tables with
    | some ts => !ts.isEmpty
    | none => false)

/-- The removed-source loop of `sync_all_sources`: every tracked key not in
the current Discovery output is marked `removed` with the pass timestamp. -/
def mark_stale (current : List String) (now : String)
    (m : List (String × SyncEntry)) : List (String × SyncEntry) :=
  m.map (fun p =>
    if current.contains p.1 then p else (p.1, mark_removed_entry p.2 now))

/-- The upserted entry for a successfully processed source:
`first_processed` preserved from the existing entry if any, else the pass
timestamp; `last_synced` set to the pass timestamp; status `processed` (the
replacement dict literal carries no `removed_date`). -/
def processed_entry (m : List (String × SyncEntry)) (s : Source) (now : String) :
    SyncEntry :=
  { first_processed :=
      match lookupEntry m s.full_name with
      | some e => e.first_processed
      | none => now,
    last_synced := now,
    datasource_type := s.datasource_type,
    engine := s.engine,
    status := "processed",
    removed_date := none }

/-- The force-resync loop of `sync_all_sources` over the current sources:
`ok` abstracts whether `bulk_insert_contracts_from_datasource` succeeds for a
source (a per-source failure is caught and leaves the tracking map alone). -/
def process_sources (ok : Source → Bool) (now : String) :
    List Source → List (String × SyncEntry) → List (String × SyncEntry)
  | [], m => m
  | s :: rest, m =>
    if ok s then
      process_sources ok now rest (upsertEntry m s.full_name (processed_entry m s now))
    else process_sources ok now rest m

/-- The structured result `sync_all_sources` returns. -/
structure SyncResult where
  status : String
  total_sources : Nat
  new_sources : Nat
  updated_sources : Nat
  removed_sources : Nat
  new_source_names : List String
  removed_source_names : List String
deriving DecidableEq, Repr

/-- `KnowledgeBaseManager.sync_all_sources`, over the loaded registry
`configs`, the Discovery output `legal_sources`, the per-source ingestion
outcome `ok`, the in-memory tracking state `st` and the pass timestamp
`now`: short-circuit to `skipped` when no datasource has selected tables;
otherwise mark stale entries removed, force-resync every current source,
and bump the pass counter and last-sync timestamp. -/
def sync_all_sources (configs : List (String × IntegrationConfig))
    (legal_sources : List Source) (ok : Source → Bool) (st : TrackingData)
    (now : String) : SyncResult × TrackingData :=
  if !has_configured_datasources configs then
    ({ status := "skipped", total_sources := 0, new_sources := 0,
       updated_sources := 0, removed_sources := 0, new_source_names := [],
       removed_source_names := [] }, st)
  else
    let current := legal_sources.map (·.full_name)
    let removed_names := (entryKeys st.processed_sources).filter
      (fun k => !current.contains k)
    let m1 := mark_stale current now st.processed_sources
    let m2 := process_sources ok now legal_sources m1
    ({ status := "completed",
       total_sources := legal_sources.length,
       new_sources := (legal_sources.filter ok).length,
       updated_sources := 0,
       removed_sources := removed_names.length,
       new_source_names := legal_sources.map (·.full_name),
       removed_source_names := removed_names },
     { processed_sources := m2, last_sync := some now,
       sync_count := st.sync_count + 1 })

/-- The structured result of `mark_source_as_removed`. -/
structure RemoveResult where
  status : String
  removed_sources : List String
deriving DecidableEq, Repr

/-- `KnowledgeBaseManager.mark_source_as_removed`: every tracking key that
contains the given datasource name as a substring is soft-removed (status and
removal timestamp set in place); nothing is deleted. -/
def mark_source_as_removed (st : TrackingData) (datasource_name : String)
    (now : String) : RemoveResult × TrackingData :=
  let removed := (entryKeys st.processed_sources).filter
    (fun k => strContains datasource_name k)
  let m := st.processed_sources.map (fun p =>
    if strContains datasource_name p.1 then (p.1, mark_removed_entry p.2 now) else p)
  ({ status := "marked_removed", removed_sources := removed },
   { st with processed_sources := m })

/-! ## Per-instance scheduled jobs (`kb_manager.py`) -/

/-- `KnowledgeBaseManager._get_job_name_for_instance`: the fixed prefix
`kb_sync_` and the instance name. -/
def get_job_name_for_instance (instance_name : String) : String :=
  "kb_sync_" ++ instance_name

/-- One scheduled job as the host scheduler holds it: its name and the
queries added to it. -/
structure SchedJob where
  name : String
  queries : List String
deriving DecidableEq, Repr

/-- Modelled from the spec: the commit of the scheduler's context-managed
`jobs.create` block (`mindsdb_sdk`, outside this repository, is what
materializes the job on block exit).  Per the spec's job-scheduler contract,
"if zero units could be successfully turned into a query ... the job is not
created": a job is materialized only when at least one query was added. -/
def jobs_create_commit (jobs : List SchedJob) (job_name : String)
    (queries : List String) : List SchedJob :=
  if queries.isEmpty then jobs else jobs ++ [{ name := job_name, queries := queries }]

/-- The structured result of `create_instance_sync_job`. -/
structure JobResult where
  status : String
  instance_name : String
  job_name : String
deriving DecidableEq, Repr

/-- `KnowledgeBaseManager.create_instance_sync_job`, over the scheduler's
current job list and the instance's sources.  `gen` abstracts the per-source
query generation (schema probing and
`_generate_job_insert_query_with_pdf_extraction`); a source on which it
fails is caught and skipped.  No sources short-circuits to `skipped`; an
existing job with the instance's name short-circuits to `already_exists`;
zero successfully generated queries reports `failed`. -/
def create_instance_sync_job (gen : Source → Option String)
    (jobs : List SchedJob) (instance_name : String) (sources : List Source) :
    JobResult × List SchedJob :=
  let job_name := get_job_name_for_instance instance_name
  if sources.isEmpty then
    ({ status := "skipped", instance_name := instance_name, job_name := job_name }, jobs)
  else if jobs.any (fun j => j.name == job_name) then
    ({ status := "already_exists", instance_name := instance_name,
       job_name := job_name }, jobs)
  else
    let queries := sources.filterMap gen
    let jobs2 := jobs_create_commit jobs job_name queries
    if queries.isEmpty then
      ({ status := "failed", instance_name := instance_name, job_name := job_name },
       jobs2)
    else
      ({ status := "created", instance_name := instance_name, job_name := job_name },
       jobs2)

/-- The number of scheduled jobs carrying a given name. -/
def countNamed (jobs : List SchedJob) (nm : String) : Nat :=
  (jobs.filter (fun j => j.name == nm)).length

/-! ## Persisted-state loaders (`kb_manager.py`) -/

/-- The default tracking document `_load_tracking_data` falls back to. -/
def default_tracking : TrackingData :=
  { processed_sources := [], last_sync := none, sync_count := 0 }

/-- `KnowledgeBaseManager._load_tracking_data`: a missing file (`none`), an
empty-after-strip file, or content the JSON parser rejects (`parseJson`
abstracts `json.loads`, `none` standing for a raised `JSONDecodeError`) all
yield the default document; otherwise the parsed document. -/
def load_tracking_data (parseJson : String → Option TrackingData)
    (file : Option String) : TrackingData :=
  match file with
  | none => default_tracking
  | some content =>
    let c := content.trim
    if c = "" then default_tracking
    else
      match parseJson c with
      | some d => d
      | none => default_tracking

/-- `KnowledgeBaseManager._load_integration_configs`: same recovery shape,
with the empty registry as the default. -/
def load_integration_configs
    (parseJson : String → Option (List (String × IntegrationConfig)))
    (file : Option String) : List (String × IntegrationConfig) :=
  match file with
  | none => []
  | some content =>
    let c := content.trim
    if c = "" then []
    else
      match parseJson c with
      | some d => d
      | none => []

example : find_best_content_field ["zzz"] email_priority_fields = "body" := by decide
example : claimed_resolution ["zzz"] email_priority_fields = none := by decide
example : find_best_content_field ["subject_line", "body_html"] email_priority_fields = "body_html" := by decide
example : claimed_resolution ["subject_line", "body_html"] email_priority_fields = some "subject_line" := by decide
example : detect_contract_text_column ["foo_documents"] = some "foo_documents" := by decide
example : claimed_resolution ["foo_documents"] kb_priority_names = none := by decide

example :
    (email_metadata_pairs "db" "t" "body" ["id", "body", "created_at"]).map (·.1) =
      ["source_table", "content_column", "to_field", "from_field", "datetime",
       "subject", "message_id", "data_type"] := by decide

example :
    (postgres_metadata_pairs "db" "t" "content" ["id", "body", "created_at"]).map (·.1) =
      ["source_table", "content_column", "data_type", "id", "created_at"] := by decide

example : safe_coalesce "id" ["id", "body"] = "COALESCE(id, '')" := by decide
example : safe_coalesce "name" ["id", "body"] = "''" := by decide

example :
    eval_content_expr (content_clause_ast (some "doc")) "https://x.com/a.pdf" =
      .markdown "https://x.com/a.pdf" := by decide
example :
    eval_content_expr (content_clause_ast (some "doc")) "plain text" = .raw "plain text" := by
  decide
example : generate_content_extraction_clause (some "") = "'No content available'" := by decide

/-! ## Loop/combinator correspondences for the resolution functions -/

theorem findExactField_eq (P cols : List String) :
    findExactField P cols = P.find? (fun f => cols.contains f) := by
  induction P with
  | nil => rfl
  | cons f fs ih =>
    unfold findExactField
    rw [List.find?_cons]
    cases h : cols.contains f <;> simp [h, ih]

theorem colPartial_eq (f : String) (cols : List String) :
    colPartial f cols =
      cols.find? (fun c => strContains (strLower f) (strLower c)) := by
  induction cols with
  | nil => rfl
  | cons c cs ih =>
    unfold colPartial
    rw [List.find?_cons]
    cases h : strContains (strLower f) (strLower c) <;> simp [h, ih]

theorem findPartialField_eq (P cols : List String) :
    findPartialField P cols =
      P.findSome?
        (fun f => cols.find? (fun c => strContains (strLower f) (strLower c))) := by
  induction P with
  | nil => rfl
  | cons f fs ih =>
    unfold findPartialField
    rw [List.findSome?_cons, ← colPartial_eq]
    cases h : colPartial f cols <;> simp [h, ih]

theorem kbColPartial_eq (p : String) (cols : List String) :
    kbColPartial p cols = cols.find? (fun c => strContains p (strLower c)) := by
  induction cols with
  | nil => rfl
  | cons c cs ih =>
    unfold kbColPartial
    rw [List.find?_cons]
    cases h : strContains p (strLower c) <;> simp [h, ih]

theorem kbPartial_eq (P cols : List String) :
    kbPartial P cols =
      P.findSome? (fun p => cols.find? (fun c => strContains p (strLower c))) := by
  induction P with
  | nil => rfl
  | cons p ps ih =>
    unfold kbPartial
    rw [List.findSome?_cons, ← kbColPartial_eq]
    cases h : kbColPartial p cols <;> simp [h, ih]

theorem kbKeywordFallback_eq (cols : List String) :
    kbKeywordFallback cols =
      cols.find?
        (fun c => kb_fallback_keywords.any (fun k => strContains k (strLower c))) := by
  induction cols with
  | nil => rfl
  | cons c cs ih =>
    unfold kbKeywordFallback
    rw [List.find?_cons]
    cases h : kb_fallback_keywords.any (fun k => strContains k (strLower c)) <;>
      simp [h, ih]

theorem find_best_eq_amended (cols P : List String) :
    find_best_content_field cols P = amended_find_best cols P := by
  unfold find_best_content_field amended_find_best
  rw [findExactField_eq, findPartialField_eq]
  cases cols with
  | nil =>
    have h1 : P.find? (fun _ => false) = none :=
      List.find?_eq_none.mpr (by intro x _; simp)
    have h2 : P.findSome? (fun _ => (none : Option String)) = none := by
      induction P with
      | nil => rfl
      | cons f fs ih => simp [List.findSome?_cons, ih]
    simp [h1, h2]
  | cons c cs => simp

theorem detect_eq_amended (cols : List String) :
    detect_contract_text_column cols = amended_detect cols := by
  unfold detect_contract_text_column amended_detect
  rw [findExactField_eq, kbPartial_eq, kbKeywordFallback_eq]
  cases cols with
  | nil =>
    have h1 : kb_priority_names.find? (fun _ => false) = none :=
      List.find?_eq_none.mpr (by intro x _; simp)
    have h2 : kb_priority_names.findSome? (fun _ => (none : Option String)) = none := by
      generalize kb_priority_names = P
      induction P with
      | nil => rfl
      | cons f fs ih => simp [List.findSome?_cons, ih]
    simp [h1, h2]
  | cons c cs =>
    simp only [List.isEmpty_cons, Bool.false_eq_true, if_false]
    cases hf : kb_priority_names.find? (fun p => (c :: cs).contains p) with
    | some f => simp [hf]
    | none =>
      cases hp : kb_priority_names.findSome? (fun p => (c :: cs).find?
          (fun d => strContains p (strLower d))) with
      | some d => simp [hf, hp]
      | none => simp [hf, hp]

/-- C3 (amended): content-column resolution follows (1) the first priority
name that is an exact case-sensitive member of the available columns; (2)
otherwise, scanning priority names in priority order, the first available
column containing the current priority name as a case-insensitive
substring; (3) otherwise the generator's resolver returns the first priority
name as a kind-specific default (never no-column), while `kb_manager`'s
detector falls back to the first available column containing one of the
keywords text/content/url/pdf/document/subject/body and only then reports
no column. -/
theorem c3_resolution_order (cols P : List String) :
    find_best_content_field cols P = amended_find_best cols P ∧
    detect_contract_text_column cols = amended_detect cols :=
  ⟨find_best_eq_amended cols P, detect_eq_amended cols⟩

/-- C3 is false as stated: with available columns `["zzz"]` no email priority
name matches exactly or as a substring, yet `_find_best_content_field`
returns the first priority name `body` (not no-column), and the downstream
clause is not the fallback sentinel; the claimed order also picks the first
matching column (`subject_line`) where the code scans priority names first
and picks `body_html`; and the `kb_manager` detector resolves
`foo_documents` through its keyword fallback where the claimed order yields
no column. -/
theorem c3_counterexample :
    claimed_resolution ["zzz"] email_priority_fields = none ∧
    find_best_content_field ["zzz"] email_priority_fields = "body" ∧
    generate_content_extraction_clause
        (some (find_best_content_field ["zzz"] email_priority_fields)) ≠
      "'No content available'" ∧
    claimed_resolution ["subject_line", "body_html"] email_priority_fields =
      some "subject_line" ∧
    find_best_content_field ["subject_line", "body_html"] email_priority_fields =
      "body_html" ∧
    claimed_resolution ["foo_documents"] kb_priority_names = none ∧
    detect_contract_text_column ["foo_documents"] = some "foo_documents" := by
  decide

/-- C4 is false as stated: for the email generator with available columns
`["id", "body", "created_at"]`, the metadata candidate `to_field` is absent
from the columns yet appears as a key of the emitted metadata object, and
the key set is the fixed email set, not `{id, created_at}` plus the fixed
fields. -/
theorem c4_counterexample :
    ("to_field" ∈ (email_metadata_pairs "db" "t"
        (email_content_field none ["id", "body", "created_at"])
        ["id", "body", "created_at"]).map (·.1)) ∧
    "to_field" ∉ ["id", "body", "created_at"] ∧
    ("id" ∉ (email_metadata_pairs "db" "t"
        (email_content_field none ["id", "body", "created_at"])
        ["id", "body", "created_at"]).map (·.1)) ∧
    ("created_at" ∉ (email_metadata_pairs "db" "t"
        (email_content_field none ["id", "body", "created_at"])
        ["id", "body", "created_at"]).map (·.1)) ∧
    email_content_field none ["id", "body", "created_at"] = "body" := by
  decide

/-- C4 (amended): the email generator's metadata object always carries
exactly the fixed keys source_table, content_column, to_field, from_field,
datetime, subject, message_id and data_type; a candidate present in the
available columns is wrapped in a null-safe coalesce to the empty value,
and an absent candidate's value is the empty-string literal.  The
presence-filtered behaviour the claim describes is the postgres generator's:
a common business field absent from the available columns never appears as a
key, and for a table with columns `["id", "body", "created_at"]` the postgres
metadata key set is `{id, created_at}` plus the fixed
`{source_table, content_column, data_type}`. -/
theorem c4_metadata_keys (ds t cf f : String) (cols : List String) :
    ((email_metadata_pairs ds t cf cols).map (·.1) =
      ["source_table", "content_column", "to_field", "from_field", "datetime",
       "subject", "message_id", "data_type"]) ∧
    (cols.contains f = true →
      safe_coalesce f cols = "COALESCE(" ++ f ++ ", '')") ∧
    (cols.contains f = false → safe_coalesce f cols = "''") ∧
    ((postgres_metadata_pairs ds t cf cols).map (·.1) =
      ["source_table", "content_column", "data_type"] ++
        postgres_common_fields.filter (fun g => cols.contains g)) ∧
    ((postgres_metadata_pairs "db" "t"
        (postgres_content_field none ["id", "body", "created_at"])
        ["id", "body", "created_at"]).map (·.1) =
      ["source_table", "content_column", "data_type", "id", "created_at"]) := by
  refine ⟨by simp [email_metadata_pairs], ?_, ?_, ?_, by decide⟩
  · intro h; simp only [safe_coalesce]; rw [h]; simp
  · intro h; simp only [safe_coalesce]; rw [h]; simp
  · simp only [postgres_metadata_pairs, List.map_append]
    congr 1
    induction postgres_common_fields.filter (fun g => cols.contains g) with
    | nil => rfl
    | cons g gs ih => simp [ih]

theorem c4_metadata_keys_witness :
    (safe_coalesce "id" ["id", "body", "created_at"] = "COALESCE(id, '')") ∧
    (safe_coalesce "to_field" ["id", "body", "created_at"] = "''") ∧
    ((postgres_metadata_pairs "db" "t" "content" ["id", "body", "created_at"]).map (·.1) =
      ["source_table", "content_column", "data_type", "id", "created_at"]) := by
  have h1 := c4_metadata_keys "db" "t" "content" "id" ["id", "body", "created_at"]
  have h2 := c4_metadata_keys "db" "t" "content" "to_field" ["id", "body", "created_at"]
  refine ⟨h1.2.1 (by decide), h2.2.2.1 (by decide), ?_⟩
  rw [h1.2.2.2.1]
  decide

/-- C5: the emitted content expression is the PDF-aware conditional for a
resolved content column — it requests document-to-text conversion
(`TO_MARKDOWN`) exactly when the column's value starts with `http` and ends
in `.pdf` or contains `pdf` case-insensitively, and is the raw value
otherwise — and is the literal sentinel `'No content available'` when the
content field is `None` or empty.  The structured clause renders to exactly
the text `_generate_content_extraction_clause` emits. -/
theorem c5_content_expression (cf : Option String) (f v : String) :
    (render_content_expr (content_clause_ast cf) =
      generate_content_extraction_clause cf) ∧
    (cf = none ∨ cf = some "" →
      generate_content_extraction_clause cf = "'No content available'" ∧
      content_clause_ast cf = .sentinel) ∧
    (cf = some f → f ≠ "" →
      content_clause_ast cf = .pdfCase f ∧
      (eval_content_expr (content_clause_ast cf) v = .markdown v ↔
        strStartsWith v "http" = true ∧
          (strEndsWith v ".pdf" = true ∨ strContains "pdf" (strLower v) = true)) ∧
      (¬(strStartsWith v "http" = true ∧
          (strEndsWith v ".pdf" = true ∨ strContains "pdf" (strLower v) = true)) →
        eval_content_expr (content_clause_ast cf) v = .raw v)) := by
  refine ⟨?_, ?_, ?_⟩
  · cases cf with
    | none => rfl
    | some g =>
      by_cases hg : g = "" <;>
        simp [content_clause_ast, render_content_expr,
          generate_content_extraction_clause, hg]
  · rintro (rfl | rfl) <;>
      simp [generate_content_extraction_clause, content_clause_ast]
  · rintro rfl hf
    have hast : content_clause_ast (some f) = .pdfCase f := by
      simp [content_clause_ast, hf]
    refine ⟨hast, ?_, ?_⟩
    · rw [hast]
      unfold eval_content_expr
      by_cases h1 : strStartsWith v "http" = true <;>
        by_cases h2 : strEndsWith v ".pdf" = true <;>
          by_cases h3 : strContains "pdf" (strLower v) = true <;>
            simp [h1, h2, h3]
    · intro hcond
      rw [hast]
      unfold eval_content_expr
      by_cases h1 : strStartsWith v "http" = true <;>
        by_cases h2 : strEndsWith v ".pdf" = true <;>
          by_cases h3 : strContains "pdf" (strLower v) = true <;>
            simp [h1, h2, h3] <;> tauto

theorem c5_content_expression_witness :
    (content_clause_ast (some "doc_url") = .pdfCase "doc_url") ∧
    (eval_content_expr (content_clause_ast (some "doc_url"))
        "https://x.com/contract.pdf" = .markdown "https://x.com/contract.pdf") ∧
    (eval_content_expr (content_clause_ast (some "doc_url")) "plain text" =
      .raw "plain text") ∧
    (generate_content_extraction_clause (some "") = "'No content available'") := by
  have h1 := c5_content_expression (some "doc_url") "doc_url"
    "https://x.com/contract.pdf"
  have h2 := c5_content_expression (some "doc_url") "doc_url" "plain text"
  have h3 := c5_content_expression (some "") "" ""
  refine ⟨(h1.2.2 rfl (by decide)).1, ?_, ?_, (h3.2.1 (Or.inr rfl)).1⟩
  · exact (h1.2.2 rfl (by decide)).2.1.mpr (by decide)
  · exact (h2.2.2 rfl (by decide)).2.2 (by decide)

theorem isPrefixOf_append_self (p y : List Char) :
    List.isPrefixOf p (p ++ y) = true := by
  induction p with
  | nil => rw [List.nil_append]; cases y <;> rfl
  | cons a as ih => simp [List.isPrefixOf, ih]

theorem listContainsSub_append (p x y : List Char) :
    listContainsSub p (x ++ p ++ y) = true := by
  induction x with
  | nil =>
    simp only [List.nil_append]
    cases p with
    | nil => cases y <;> simp [listContainsSub]
    | cons a as =>
      have h := isPrefixOf_append_self (a :: as) y
      simp only [List.cons_append] at h ⊢
      simp [listContainsSub, h]
  | cons b bs ih =>
    simp only [List.cons_append, List.append_assoc] at ih ⊢
    simp [listContainsSub, ih]

theorem string_data_append (a b : String) : (a ++ b).data = a.data ++ b.data := rfl

theorem strContains_appended (pat a b : String) :
    strContains pat (a ++ pat ++ b) = true := by
  unfold strContains
  rw [string_data_append, string_data_append]
  exact listContainsSub_append pat.data a.data b.data

theorem strContains_append_right (pat a : String) :
    strContains pat (a ++ pat) = true := by
  have h := strContains_appended pat a ""
  have he : a ++ pat ++ "" = a ++ pat := by
    apply congrArg String.mk
    simp [string_data_append]
  rwa [he] at h

set_option maxRecDepth 20000 in
/-- C9 is false as stated: the generator builds query text by direct string
interpolation with no bound values — a datasource name carried over from the
user's integration-configuration request is embedded verbatim into the query
text, so a name containing a quote and SQL fragments places those fragments
into the emitted query. -/
theorem c9_counterexample :
    strContains "x'); DROP TABLE users;--"
      (generate_email_insert_query "mindsdb" "legal_contracts_kb"
        "x'); DROP TABLE users;--" "emails" none ["body"] true) = true ∧
    strContains "DROP TABLE users"
      (generate_email_insert_query "mindsdb" "legal_contracts_kb"
        "x'); DROP TABLE users;--" "emails" none ["body"] true) = true := by
  decide

/-- C9 (amended): the emitted query is built by string concatenation, not
parameterization — the datasource and table names (which originate from the
integration-configuration request, not from schema introspection) appear
verbatim inside the query text of both the email and postgres generators —
while the column identifiers wrapped in metadata coalesces are used only
when present in the schema-introspected column list (an absent candidate
contributes the empty-string literal and no column reference). -/
theorem c9_interpolation (project kb ds t f : String) (ctc : Option String)
    (cols : List String) :
    strContains (ds ++ "." ++ t)
      (generate_email_insert_query project kb ds t ctc cols true) = true ∧
    strContains (ds ++ "." ++ t)
      (generate_postgres_insert_query project kb ds t ctc cols true) = true ∧
    (cols.contains f = false → safe_coalesce f cols = "''") := by
  refine ⟨?_, ?_, ?_⟩
  · unfold generate_email_insert_query
    simp only [if_true]
    rw [show ∀ A : String, A ++ " as metadata\n                FROM " ++ ds ++ "." ++ t =
        (A ++ " as metadata\n                FROM ") ++ (ds ++ "." ++ t) from
      fun A => by simp [String.append_assoc]]
    exact strContains_append_right _ _
  · unfold generate_postgres_insert_query
    simp only [if_true]
    rw [show ∀ A : String, A ++ " as metadata\n                FROM " ++ ds ++ "." ++ t =
        (A ++ " as metadata\n                FROM ") ++ (ds ++ "." ++ t) from
      fun A => by simp [String.append_assoc]]
    exact strContains_append_right _ _
  · intro h; simp only [safe_coalesce]; rw [h]; simp

theorem c9_interpolation_witness :
    strContains "pg_crm.deals"
      (generate_email_insert_query "mindsdb" "legal_contracts_kb"
        "pg_crm" "deals" none ["body"] true) = true ∧
    safe_coalesce "owner_id" ["body"] = "''" := by
  have h := c9_interpolation "mindsdb" "legal_contracts_kb" "pg_crm" "deals"
    "owner_id" none ["body"]
  exact ⟨h.1, h.2.2 (by decide)⟩

/-! ## Association-list lemmas for the tracking map -/

theorem lookupEntry_mapEntries (g : String → SyncEntry → SyncEntry)
    (m : List (String × SyncEntry)) (k : String) :
    lookupEntry (m.map (fun p => (p.1, g p.1 p.2))) k =
      (lookupEntry m k).map (g k) := by
  induction m with
  | nil => rfl
  | cons p rest ih =>
    by_cases h : p.1 = k
    · simp [lookupEntry, h]
    · simp [lookupEntry, h, ih]

theorem entryKeys_mapEntries (g : String → SyncEntry → SyncEntry)
    (m : List (String × SyncEntry)) :
    entryKeys (m.map (fun p => (p.1, g p.1 p.2))) = entryKeys m := by
  induction m with
  | nil => rfl
  | cons p rest ih => simp [entryKeys]

theorem mark_stale_eq (current : List String) (now : String)
    (m : List (String × SyncEntry)) :
    mark_stale current now m =
      m.map (fun p => (p.1,
        if current.contains p.1 then p.2 else mark_removed_entry p.2 now)) := by
  unfold mark_stale
  induction m with
  | nil => rfl
  | cons p rest ih =>
    rw [List.map_cons, List.map_cons, ih]
    congr 1
    by_cases h : current.contains p.1 = true
    · rw [if_pos h, if_pos h]
    · rw [if_neg h, if_neg h]

theorem mark_source_map_eq (name now : String) (m : List (String × SyncEntry)) :
    m.map (fun p =>
        if strContains name p.1 then (p.1, mark_removed_entry p.2 now) else p) =
      m.map (fun p => (p.1,
        if strContains name p.1 then mark_removed_entry p.2 now else p.2)) := by
  induction m with
  | nil => rfl
  | cons p rest ih =>
    rw [List.map_cons, List.map_cons, ih]
    congr 1
    by_cases h : strContains name p.1 = true
    · rw [if_pos h, if_pos h]
    · rw [if_neg h, if_neg h]

theorem lookupEntry_mark_stale (current : List String) (now : String)
    (m : List (String × SyncEntry)) (k : String) :
    lookupEntry (mark_stale current now m) k =
      (lookupEntry m k).map
        (fun e => if current.contains k then e else mark_removed_entry e now) := by
  rw [mark_stale_eq]
  exact lookupEntry_mapEntries
    (fun k2 e => if current.contains k2 then e else mark_removed_entry e now) m k

theorem entryKeys_mark_stale (current : List String) (now : String)
    (m : List (String × SyncEntry)) :
    entryKeys (mark_stale current now m) = entryKeys m := by
  rw [mark_stale_eq]
  exact entryKeys_mapEntries
    (fun k2 e => if current.contains k2 then e else mark_removed_entry e now) m

theorem lookupEntry_replace_ne (m : List (String × SyncEntry)) (k k' : String)
    (v : SyncEntry) (h : k ≠ k') :
    lookupEntry (m.map (fun p => if p.1 = k' then (k', v) else p)) k =
      lookupEntry m k := by
  induction m with
  | nil => rfl
  | cons p rest ih =>
    by_cases hp : p.1 = k'
    · simp [lookupEntry, hp, Ne.symm h, ih]
    · by_cases hk : p.1 = k <;> simp [lookupEntry, hp, hk, h, ih]

theorem lookupEntry_append_single_ne (m : List (String × SyncEntry))
    (k k' : String) (v : SyncEntry) (h : k ≠ k') :
    lookupEntry (m ++ [(k', v)]) k = lookupEntry m k := by
  induction m with
  | nil => simp [lookupEntry, Ne.symm h]
  | cons p rest ih => by_cases hk : p.1 = k <;> simp [lookupEntry, hk, ih]

theorem lookupEntry_upsert_ne (m : List (String × SyncEntry)) (k k' : String)
    (v : SyncEntry) (h : k ≠ k') :
    lookupEntry (upsertEntry m k' v) k = lookupEntry m k := by
  unfold upsertEntry
  by_cases hs : (lookupEntry m k').isSome <;>
    simp [hs, lookupEntry_replace_ne m k k' v h,
      lookupEntry_append_single_ne m k k' v h]

theorem entryKeys_replace (m : List (String × SyncEntry)) (k' : String)
    (v : SyncEntry) :
    entryKeys (m.map (fun p => if p.1 = k' then (k', v) else p)) = entryKeys m := by
  induction m with
  | nil => rfl
  | cons p rest ih =>
    by_cases hp : p.1 = k' <;> simp [entryKeys, hp, ih] <;>
      simp [entryKeys] at ih <;> simpa [hp] using ih

theorem entryKeys_upsert_mem (m : List (String × SyncEntry)) (k' : String)
    (v : SyncEntry) (k : String) (h : k ∈ entryKeys m) :
    k ∈ entryKeys (upsertEntry m k' v) := by
  unfold upsertEntry
  by_cases hs : (lookupEntry m k').isSome
  · simp only [hs, if_true]
    rw [entryKeys_replace]
    exact h
  · simp only [hs, if_false]
    simp [entryKeys, List.map_append] at h ⊢
    exact Or.inl h

theorem process_sources_lookup_ne (ok : Source → Bool) (now : String)
    (srcs : List Source) (m : List (String × SyncEntry)) (k : String)
    (h : ∀ s ∈ srcs, s.full_name ≠ k) :
    lookupEntry (process_sources ok now srcs m) k = lookupEntry m k := by
  induction srcs generalizing m with
  | nil => rfl
  | cons s rest ih =>
    unfold process_sources
    by_cases ho : ok s = true
    · simp only [ho, if_true]
      rw [ih _ (fun x hx => h x (List.mem_cons_of_mem _ hx)),
        lookupEntry_upsert_ne _ _ _ _ (Ne.symm (h s (List.mem_cons_self _ _)))]
    · simp only [ho, if_false]
      exact ih _ (fun x hx => h x (List.mem_cons_of_mem _ hx))

theorem process_sources_keys_mem (ok : Source → Bool) (now : String)
    (srcs : List Source) (m : List (String × SyncEntry)) (k : String)
    (h : k ∈ entryKeys m) :
    k ∈ entryKeys (process_sources ok now srcs m) := by
  induction srcs generalizing m with
  | nil => exact h
  | cons s rest ih =>
    unfold process_sources
    by_cases ho : ok s = true
    · simp only [ho, if_true]
      exact ih _ (entryKeys_upsert_mem _ _ _ _ h)
    · simp only [ho, if_false]
      exact ih _ h

/-- A sample tracking entry used to instantiate the theorems below. -/
def egEntry : SyncEntry :=
  { first_processed := "T0", last_synced := "T1", datasource_type := "postgres",
    engine := "postgres", status := "processed", removed_date := none }

/-- A sample tracking document with one processed unit. -/
def egTracking : TrackingData :=
  { processed_sources := [("pg.t", egEntry)], last_sync := some "T1", sync_count := 3 }

/-- A sample registry with one configured datasource. -/
def egConfigs : List (String × IntegrationConfig) :=
  [("pg", { selected_tables := some ["t"] })]

/-- A sample ingestion unit. -/
def egSource : Source :=
  { instance_name := "pg", datasource_name := "pg", table_name := "t",
    datasource_type := "postgres", full_name := "pg.t", engine := "postgres" }

/-- C1: a tracking entry is never deleted.  Every key of the tracking map
survives a sync pass; when the pass runs (configuration present) a
previously processed unit absent from the current Discovery output keeps its
entry with only `status` set to `removed` and the removal timestamp
recorded, all other fields intact; and `mark_source_as_removed` preserves
the key set and likewise only sets `status` and `removed_date` on the
entries it touches. -/
theorem c1_entries_never_deleted (configs : List (String × IntegrationConfig))
    (srcs : List Source) (ok : Source → Bool) (st : TrackingData)
    (now name k : String) (e : SyncEntry) :
    (k ∈ entryKeys st.processed_sources →
      k ∈ entryKeys (sync_all_sources configs srcs ok st now).2.processed_sources) ∧
    (has_configured_datasources configs = true →
      lookupEntry st.processed_sources k = some e →
      k ∉ srcs.map (·.full_name) →
      lookupEntry (sync_all_sources configs srcs ok st now).2.processed_sources k =
        some (mark_removed_entry e now)) ∧
    (entryKeys (mark_source_as_removed st name now).2.processed_sources =
      entryKeys st.processed_sources) ∧
    (lookupEntry st.processed_sources k = some e →
      lookupEntry (mark_source_as_removed st name now).2.processed_sources k =
        some (if strContains name k then mark_removed_entry e now else e)) := by
  refine ⟨?_, ?_, ?_, ?_⟩
  · intro hk
    unfold sync_all_sources
    by_cases hc : has_configured_datasources configs
    · simp only [hc, Bool.not_true, Bool.false_eq_true, if_false]
      exact process_sources_keys_mem ok now srcs _ k
        (by rw [entryKeys_mark_stale]; exact hk)
    · simp only [hc, Bool.not_false, if_true]
      exact hk
  · intro hc he hk
    unfold sync_all_sources
    simp only [hc, Bool.not_true, Bool.false_eq_true, if_false]
    have h1 : ∀ s ∈ srcs, s.full_name ≠ k := by
      intro s hs heq
      exact hk (heq ▸ List.mem_map_of_mem (·.full_name) hs)
    rw [process_sources_lookup_ne ok now srcs _ k h1, lookupEntry_mark_stale, he]
    have h2 : (srcs.map (·.full_name)).contains k = false := by
      simpa using hk
    simp only [Option.map_some', h2, Bool.false_eq_true, if_false]
  · unfold mark_source_as_removed
    rw [mark_source_map_eq]
    exact entryKeys_mapEntries
      (fun k2 e2 => if strContains name k2 then mark_removed_entry e2 now else e2) _
  · intro he
    unfold mark_source_as_removed
    rw [mark_source_map_eq]
    rw [lookupEntry_mapEntries
      (fun k2 e2 => if strContains name k2 then mark_removed_entry e2 now else e2) _ k]
    rw [he]
    rfl

theorem c1_entries_never_deleted_witness :
    (lookupEntry (sync_all_sources egConfigs [] (fun _ => true) egTracking
        "T2").2.processed_sources "pg.t" = some (mark_removed_entry egEntry "T2")) ∧
    (lookupEntry (mark_source_as_removed egTracking "pg" "T2").2.processed_sources
        "pg.t" = some (mark_removed_entry egEntry "T2")) ∧
    ("pg.t" ∈ entryKeys (sync_all_sources egConfigs [] (fun _ => true) egTracking
        "T2").2.processed_sources) := by
  have h := c1_entries_never_deleted egConfigs [] (fun _ => true) egTracking
    "T2" "pg" "pg.t" egEntry
  refine ⟨h.2.1 (by decide) (by decide) (by simp), ?_, h.1 (by decide)⟩
  have h4 := h.2.2.2 (by decide)
  rw [h4]
  decide

/-- C2: when no datasource has a non-empty `selected_tables` configuration,
`sync_all_sources` returns a `skipped` result and leaves the tracking state
(entries, pass counter and last-sync timestamp) completely unchanged. -/
theorem c2_skip_without_config (configs : List (String × IntegrationConfig))
    (srcs : List Source) (ok : Source → Bool) (st : TrackingData) (now : String)
    (h : ∀ p ∈ configs,
      p.2.selected_tables = none ∨ p.2.selected_tables = some ([] : List String)) :
    (sync_all_sources configs srcs ok st now).1.status = "skipped" ∧
    (sync_all_sources configs srcs ok st now).2 = st := by
  have hc : has_configured_datasources configs = false := by
    unfold has_configured_datasources
    rw [List.any_eq_false]
    intro p hp
    rcases h p hp with h1 | h1 <;> simp [h1]
  unfold sync_all_sources
  rw [hc]
  exact ⟨rfl, rfl⟩

theorem c2_skip_without_config_witness :
    (sync_all_sources [("a", { selected_tables := none }),
        ("b", { selected_tables := some [] })] [egSource] (fun _ => true)
        egTracking "T2").1.status = "skipped" ∧
    (sync_all_sources [("a", { selected_tables := none }),
        ("b", { selected_tables := some [] })] [egSource] (fun _ => true)
        egTracking "T2").2 = egTracking :=
  c2_skip_without_config _ _ _ _ _ (by decide)

/-- C10: `mark_source_as_removed` transitions to `removed` exactly the
entries whose key contains the given name as a substring — all keys are
kept, the last-sync timestamp and pass counter are untouched, a touched
entry changes only its status and removal date, the reported removed list is
the filtered key list, and in particular `crm_1` is a substring of
`crm_10.deals`, so removing `crm_1` also marks `crm_10.deals`. -/
theorem c10_substring_removal (st : TrackingData) (name now k : String) :
    (entryKeys (mark_source_as_removed st name now).2.processed_sources =
      entryKeys st.processed_sources) ∧
    ((mark_source_as_removed st name now).2.last_sync = st.last_sync) ∧
    ((mark_source_as_removed st name now).2.sync_count = st.sync_count) ∧
    (lookupEntry (mark_source_as_removed st name now).2.processed_sources k =
      (lookupEntry st.processed_sources k).map
        (fun e => if strContains name k then mark_removed_entry e now else e)) ∧
    ((mark_source_as_removed st name now).1.removed_sources =
      (entryKeys st.processed_sources).filter (fun k2 => strContains name k2)) ∧
    strContains "crm_1" "crm_10.deals" = true := by
  refine ⟨?_, rfl, rfl, ?_, rfl, by decide⟩
  · unfold mark_source_as_removed
    rw [mark_source_map_eq]
    exact entryKeys_mapEntries
      (fun k2 e2 => if strContains name k2 then mark_removed_entry e2 now else e2) _
  · unfold mark_source_as_removed
    rw [mark_source_map_eq]
    exact lookupEntry_mapEntries
      (fun k2 e2 => if strContains name k2 then mark_removed_entry e2 now else e2) _ k

/-! ## Job-lifecycle lemmas -/

theorem countNamed_eq_zero_of_not_any (jobs : List SchedJob) (nm : String)
    (h : jobs.any (fun j => j.name == nm) = false) : countNamed jobs nm = 0 := by
  unfold countNamed
  rw [List.length_eq_zero, List.filter_eq_nil_iff]
  intro j hj
  simpa using List.any_eq_false.mp h j hj

theorem create_job_snd (gen : Source → Option String) (jobs : List SchedJob)
    (n : String) (srcs : List Source) :
    (create_instance_sync_job gen jobs n srcs).2 =
      if srcs.isEmpty then jobs
      else if jobs.any (fun j => j.name == get_job_name_for_instance n) then jobs
      else jobs_create_commit jobs (get_job_name_for_instance n)
        (srcs.filterMap gen) := by
  unfold create_instance_sync_job
  by_cases h0 : srcs.isEmpty <;>
    by_cases h1 : jobs.any (fun j => j.name == get_job_name_for_instance n) <;>
      by_cases h2 : (srcs.filterMap gen).isEmpty <;> simp [h0, h1, h2]

theorem countNamed_create_le (gen : Source → Option String) (jobs : List SchedJob)
    (n : String) (srcs : List Source)
    (h : countNamed jobs (get_job_name_for_instance n) ≤ 1) :
    countNamed (create_instance_sync_job gen jobs n srcs).2
      (get_job_name_for_instance n) ≤ 1 := by
  rw [create_job_snd]
  by_cases h0 : srcs.isEmpty
  · simp [h0, h]
  · by_cases h1 : jobs.any (fun j => j.name == get_job_name_for_instance n)
    · simp [h0, h1, h]
    · have hz : countNamed jobs (get_job_name_for_instance n) = 0 :=
        countNamed_eq_zero_of_not_any _ _ (by simpa using h1)
      by_cases h2 : (srcs.filterMap gen).isEmpty
      · simp [h0, h1, h2, jobs_create_commit, h]
      · simp only [h0, h1, h2, jobs_create_commit, if_false, Bool.false_eq_true,
          countNamed, List.filter_append]
        simp only [countNamed] at hz
        simp [hz]

/-- C6: the scheduled job name is the fixed prefix `kb_sync_` concatenated
with the instance name; when a job with that name already exists,
`create_instance_sync_job` reports `already_exists` and leaves the job list
unchanged; and starting from at most one job with the instance's name,
calling the creation path twice in a row leaves at most one such job (no
duplicate is ever created). -/
theorem c6_one_job_per_instance (gen : Source → Option String)
    (jobs : List SchedJob) (n : String) (srcs : List Source) :
    (get_job_name_for_instance n = "kb_sync_" ++ n) ∧
    (jobs.any (fun j => j.name == get_job_name_for_instance n) = true →
      (create_instance_sync_job gen jobs n srcs).2 = jobs ∧
      (srcs ≠ [] →
        (create_instance_sync_job gen jobs n srcs).1.status = "already_exists")) ∧
    (countNamed jobs (get_job_name_for_instance n) ≤ 1 →
      countNamed (create_instance_sync_job gen jobs n srcs).2
          (get_job_name_for_instance n) ≤ 1 ∧
      countNamed (create_instance_sync_job gen
          (create_instance_sync_job gen jobs n srcs).2 n srcs).2
          (get_job_name_for_instance n) ≤ 1) := by
  refine ⟨rfl, ?_, ?_⟩
  · intro h1
    constructor
    · rw [create_job_snd]
      by_cases h0 : srcs.isEmpty <;> simp [h0, h1]
    · intro h0
      have h0' : srcs.isEmpty = false := by
        simpa [List.isEmpty_iff] using h0
      unfold create_instance_sync_job
      simp [h0', h1]
  · intro h
    have hA := countNamed_create_le gen jobs n srcs h
    exact ⟨hA, countNamed_create_le gen _ n srcs hA⟩

theorem c6_one_job_per_instance_witness :
    countNamed (create_instance_sync_job (fun _ => some "q")
        (create_instance_sync_job (fun _ => some "q") [] "pg" [egSource]).2 "pg"
        [egSource]).2 (get_job_name_for_instance "pg") ≤ 1 ∧
    (create_instance_sync_job (fun _ => some "q")
        [{ name := "kb_sync_pg", queries := ["q"] }] "pg" [egSource]).1.status =
      "already_exists" := by
  have h1 := c6_one_job_per_instance (fun _ => some "q") [] "pg" [egSource]
  have h2 := c6_one_job_per_instance (fun _ => some "q")
    [{ name := "kb_sync_pg", queries := ["q"] }] "pg" [egSource]
  exact ⟨(h1.2.2 (by decide)).2, (h2.2.1 (by decide)).2 (by decide)⟩

/-- C7: when the instance has sources but every per-source query generation
attempt fails, `create_instance_sync_job` reports `failed` and the
scheduler's job list is unchanged — no empty job is left behind (the
externally materialized commit, modelled from the spec, creates no job with
zero queries). -/
theorem c7_failed_without_queries (gen : Source → Option String)
    (jobs : List SchedJob) (n : String) (srcs : List Source)
    (h0 : srcs ≠ []) (hgen : ∀ s ∈ srcs, gen s = none)
    (h1 : jobs.any (fun j => j.name == get_job_name_for_instance n) = false) :
    (create_instance_sync_job gen jobs n srcs).1.status = "failed" ∧
    (create_instance_sync_job gen jobs n srcs).2 = jobs := by
  have hq : srcs.filterMap gen = [] := by
    rw [List.filterMap_eq_nil_iff]
    exact hgen
  have h0' : srcs.isEmpty = false := by
    simpa [List.isEmpty_iff] using h0
  unfold create_instance_sync_job
  simp [h0', h1, hq, jobs_create_commit]

theorem c7_failed_without_queries_witness :
    (create_instance_sync_job (fun _ => none) [] "pg" [egSource]).1.status =
      "failed" ∧
    (create_instance_sync_job (fun _ => none) [] "pg" [egSource]).2 = [] :=
  c7_failed_without_queries (fun _ => none) [] "pg" [egSource]
    (by simp) (fun _ _ => rfl) (by decide)

/-- C8: loading the persisted tracking document and the integration-config
registry never fails — a missing file, an empty (after strip) file, or
content the JSON parser rejects all produce the default empty state
(`processed_sources` empty, no last sync, zero pass count; respectively the
empty registry). -/
theorem c8_loader_recovery (parseT : String → Option TrackingData)
    (parseC : String → Option (List (String × IntegrationConfig)))
    (content : String) :
    (load_tracking_data parseT none = default_tracking) ∧
    (load_integration_configs parseC none = []) ∧
    (content.trim = "" →
      load_tracking_data parseT (some content) = default_tracking ∧
      load_integration_configs parseC (some content) = []) ∧
    (parseT content.trim = none →
      load_tracking_data parseT (some content) = default_tracking) ∧
    (parseC content.trim = none →
      load_integration_configs parseC (some content) = []) := by
  refine ⟨rfl, rfl, ?_, ?_, ?_⟩
  · intro h
    exact ⟨by simp [load_tracking_data, h], by simp [load_integration_configs, h]⟩
  · intro h
    unfold load_tracking_data
    by_cases he : content.trim = "" <;> simp [he, h]
  · intro h
    unfold load_integration_configs
    by_cases he : content.trim = "" <;> simp [he, h]

theorem c8_loader_recovery_witness :
    (load_tracking_data (fun _ => none) none = default_tracking) ∧
    (load_tracking_data (fun _ => none) (some "not valid json") =
      default_tracking) ∧
    (load_integration_configs (fun _ => none) (some "broken ]] json") = []) := by
  have h := c8_loader_recovery (fun _ => none) (fun _ => none) "not valid json"
  have h2 := c8_loader_recovery (fun _ => none) (fun _ => none) "broken ]] json"
  exact ⟨h.1, h.2.2.2.1 rfl, h2.2.2.2.2 rfl⟩

end LegalKB
